import Mathlib

/-!
Verification of `source/learn/learning_tools.h` (EvalLearningTools).

The header defines three feature-index families KK, KKP, KPP sharing one
global 64-bit index space, and a per-parameter `Weight` record with two
build-time update rules (AdaGrad and sign-SGD).

Embedding conventions:
* `u64` values are `Nat` together with an explicit wrap `% 2^64` wherever the
  C++ arithmetic could leave the 64-bit range; `u64sub` models the wrapping
  subtraction `index -= min_index()`.
* `Square` and `Eval::BonaPiece` are enums holding small non-negative values;
  they are embedded as `Nat` components of the family structures.
* `SQ_NB` and `Eval::fe_end` are constants of the surrounding engine, not of
  this header; their concrete values are the ones the spec states.
* `Mir` (square mirror) and `mir_piece` (piece mirror table filled by
  `init()`) live outside this header; `toLowerDimensions` takes them as
  function parameters.
* `LearnFloatType`/`double` arithmetic in `Weight::updateFV` is embedded as
  exact rational arithmetic; `sqrt` from `<cmath>` is passed as a function
  parameter. The C conversions `round` (nearest, halves away from zero) and
  integral casts (truncation toward zero) are `cround` and `ctrunc` below.
-/

namespace EvalLearningTools

/-- Modelled from the spec: `SQ_NB`, the number of board squares, is an
external constant of the engine; the spec's concrete scenario fixes it at 81. -/
def SQ_NB : Nat := 81

/-- Modelled from the spec: `Eval::fe_end`, the total count of BonaPiece
codes, is an external constant; the spec's concrete scenario fixes it at 1548. -/
def fe_end : Nat := 1548

/-- The size of the `u64` value space. -/
def u64size : Nat := 2 ^ 64

/-- Wrapping `u64` subtraction `a - b`, for `a b < u64size`. -/
def u64sub (a b : Nat) : Nat := (a + u64size - b) % u64size

/-- `struct KK`: the pairwise-king feature `(king0, king1)`. -/
structure KK where
  king0 : Nat
  king1 : Nat
deriving DecidableEq

namespace KK

/-- `KK::min_index()`. -/
def min_index : Nat := 0

/-- `KK::max_index() = min_index() + SQ_NB*SQ_NB`. -/
def max_index : Nat := min_index + SQ_NB * SQ_NB

/-- `KK::is_ok(index)`: membership in `[min_index, max_index)`. -/
def is_ok (index : Nat) : Bool := min_index ≤ index && index < max_index

/-- `KK::fromIndex(index)`. The C++ body subtracts `min_index()` (u64,
wrapping), takes `% SQ_NB` for `king1`, divides by `SQ_NB`, and keeps the
quotient as `king0` without reduction (the `% SQ_NB` is commented out; the
debug-only `ASSERT_LV3` is absent in release builds). -/
def fromIndex (index : Nat) : KK :=
  let index := u64sub index min_index
  let king1 := index % SQ_NB
  let index := index / SQ_NB
  let king0 := index
  ⟨king0, king1⟩

/-- `KK::toLowerDimensions`: KK folds nothing, the class is the feature
itself. -/
def toLowerDimensions (x : KK) : List KK :=
  [⟨x.king0, x.king1⟩]

/-- `KK::toIndex() = min_index() + king0*SQ_NB + king1` in u64 arithmetic. -/
def toIndex (x : KK) : Nat :=
  (min_index + x.king0 * SQ_NB + x.king1) % u64size

end KK

/-- `struct KKP`: the king-king-piece feature `(king0, king1, piece)`. -/
structure KKP where
  king0 : Nat
  king1 : Nat
  piece : Nat
deriving DecidableEq

namespace KKP

/-- `KKP::min_index() = KK::max_index()`. -/
def min_index : Nat := KK.max_index

/-- `KKP::max_index() = min_index() + SQ_NB*SQ_NB*fe_end`. -/
def max_index : Nat := min_index + SQ_NB * SQ_NB * fe_end

/-- `KKP::is_ok(index)`. -/
def is_ok (index : Nat) : Bool := min_index ≤ index && index < max_index

/-- `KKP::fromIndex(index)`: subtract `min_index()`, peel `piece` by
`% fe_end`, then `king1` by `% SQ_NB`, keep the final quotient as `king0`
without reduction. -/
def fromIndex (index : Nat) : KKP :=
  let index := u64sub index min_index
  let piece := index % fe_end
  let index := index / fe_end
  let king1 := index % SQ_NB
  let index := index / SQ_NB
  let king0 := index
  ⟨king0, king1, piece⟩

/-- `KKP::toLowerDimensions`: the feature itself and its mirror.
`mir` is the external square mirror `Mir`, `mirp` the `mir_piece` table. -/
def toLowerDimensions (mir mirp : Nat → Nat) (x : KKP) : List KKP :=
  [⟨x.king0, x.king1, x.piece⟩,
   ⟨mir x.king0, mir x.king1, mirp x.piece⟩]

/-- `KKP::toIndex() = min_index() + (king0*SQ_NB + king1)*fe_end + piece`. -/
def toIndex (x : KKP) : Nat :=
  (min_index + (x.king0 * SQ_NB + x.king1) * fe_end + x.piece) % u64size

end KKP

/-- `struct KPP`: the king-piece-piece feature `(king, piece0, piece1)`. -/
structure KPP where
  king : Nat
  piece0 : Nat
  piece1 : Nat
deriving DecidableEq

namespace KPP

/-- `KPP::min_index() = KKP::max_index()`. -/
def min_index : Nat := KKP.max_index

/-- `KPP::max_index() = min_index() + SQ_NB*fe_end*fe_end`. -/
def max_index : Nat := min_index + SQ_NB * fe_end * fe_end

/-- `KPP::is_ok(index)`. -/
def is_ok (index : Nat) : Bool := min_index ≤ index && index < max_index

/-- `KPP::fromIndex(index)`: subtract `min_index()`, peel `piece1` then
`piece0` by `% fe_end`, keep the final quotient as `king` without
reduction. -/
def fromIndex (index : Nat) : KPP :=
  let index := u64sub index min_index
  let piece1 := index % fe_end
  let index := index / fe_end
  let piece0 := index % fe_end
  let index := index / fe_end
  let king := index
  ⟨king, piece0, piece1⟩

/-- `KPP::toLowerDimensions`: the feature, the piece swap, the mirror, and
the mirrored swap. -/
def toLowerDimensions (mir mirp : Nat → Nat) (x : KPP) : List KPP :=
  [⟨x.king, x.piece0, x.piece1⟩,
   ⟨x.king, x.piece1, x.piece0⟩,
   ⟨mir x.king, mirp x.piece0, mirp x.piece1⟩,
   ⟨mir x.king, mirp x.piece1, mirp x.piece0⟩]

/-- `KPP::toIndex() = min_index() + (king*fe_end + piece0)*fe_end + piece1`. -/
def toIndex (x : KPP) : Nat :=
  (min_index + (x.king * fe_end + x.piece0) * fe_end + x.piece1) % u64size

end KPP

/-! ### Helper lemmas shared by the claims -/

theorem u64sub_of_le (a b : Nat) (hb : b ≤ a) (ha : a < u64size) :
    u64sub a b = a - b := by
  unfold u64sub
  rw [Nat.sub_add_comm hb, Nat.add_mod_right,
    Nat.mod_eq_of_lt (Nat.lt_of_le_of_lt (Nat.sub_le a b) ha)]

/-- Digits strictly below their radices keep a mixed-radix value below the
radix product. -/
theorem radix_lt {a A b B : Nat} (ha : a < A) (hb : b < B) :
    a * B + b < A * B := by
  calc a * B + b < a * B + B := by omega
    _ = (a + 1) * B := by ring
    _ ≤ A * B := Nat.mul_le_mul_right B ha

/-- The low digit of a mixed-radix value. -/
theorem digit_mod (a b B : Nat) (hb : b < B) : (a * B + b) % B = b := by
  rw [Nat.mul_comm, Nat.mul_add_mod, Nat.mod_eq_of_lt hb]

/-- Stripping the low digit of a mixed-radix value. -/
theorem digit_div (a b B : Nat) (hb : b < B) : (a * B + b) / B = a := by
  rw [Nat.mul_comm, Nat.mul_add_div (Nat.zero_lt_of_lt hb),
    Nat.div_eq_of_lt hb, Nat.add_zero]

/-- `KK.is_ok` unfolded; the lower bound is trivial since `min_index() = 0`. -/
theorem kk_is_ok_iff (i : Nat) : KK.is_ok i = true ↔ i < KK.max_index := by
  unfold KK.is_ok
  rw [Bool.and_eq_true, decide_eq_true_eq, decide_eq_true_eq]
  exact ⟨fun h => h.2, fun h => ⟨Nat.zero_le i, h⟩⟩

/-- `KKP.is_ok` unfolded. -/
theorem kkp_is_ok_iff (i : Nat) :
    KKP.is_ok i = true ↔ KKP.min_index ≤ i ∧ i < KKP.max_index := by
  unfold KKP.is_ok
  rw [Bool.and_eq_true, decide_eq_true_eq, decide_eq_true_eq]

/-- `KPP.is_ok` unfolded. -/
theorem kpp_is_ok_iff (i : Nat) :
    KPP.is_ok i = true ↔ KPP.min_index ≤ i ∧ i < KPP.max_index := by
  unfold KPP.is_ok
  rw [Bool.and_eq_true, decide_eq_true_eq, decide_eq_true_eq]

theorem kk_is_ok_false_hi (i : Nat) (h : KK.max_index ≤ i) :
    KK.is_ok i = false := by
  unfold KK.is_ok
  rw [decide_eq_false (Nat.not_lt.mpr h), Bool.and_false]

theorem kkp_is_ok_false_lo (i : Nat) (h : i < KKP.min_index) :
    KKP.is_ok i = false := by
  unfold KKP.is_ok
  rw [decide_eq_false (Nat.not_le.mpr h), Bool.false_and]

theorem kkp_is_ok_false_hi (i : Nat) (h : KKP.max_index ≤ i) :
    KKP.is_ok i = false := by
  unfold KKP.is_ok
  rw [decide_eq_false (Nat.not_lt.mpr h), Bool.and_false]

theorem kpp_is_ok_false_lo (i : Nat) (h : i < KPP.min_index) :
    KPP.is_ok i = false := by
  unfold KPP.is_ok
  rw [decide_eq_false (Nat.not_le.mpr h), Bool.false_and]

/-- `KK.fromIndex` written out: low digit `king1`, quotient `king0`. -/
theorem kk_fromIndex_eq (i : Nat) :
    KK.fromIndex i
      = ⟨u64sub i KK.min_index / SQ_NB, u64sub i KK.min_index % SQ_NB⟩ := rfl

theorem kk_toIndex_lt (k0 k1 : Nat) (h0 : k0 < SQ_NB) (h1 : k1 < SQ_NB) :
    KK.min_index + (k0 * SQ_NB + k1) < u64size :=
  Nat.lt_trans (Nat.add_lt_add_left (radix_lt h0 h1) _) (by decide)

/-- For an in-range tuple, `KK.toIndex` never wraps. -/
theorem kk_toIndex_eq (k0 k1 : Nat) (h0 : k0 < SQ_NB) (h1 : k1 < SQ_NB) :
    KK.toIndex ⟨k0, k1⟩ = KK.min_index + (k0 * SQ_NB + k1) := by
  show (KK.min_index + k0 * SQ_NB + k1) % u64size
      = KK.min_index + (k0 * SQ_NB + k1)
  rw [Nat.add_assoc, Nat.mod_eq_of_lt (kk_toIndex_lt k0 k1 h0 h1)]

theorem kk_fromIndex_toIndex (k0 k1 : Nat) (h0 : k0 < SQ_NB) (h1 : k1 < SQ_NB) :
    KK.fromIndex (KK.toIndex ⟨k0, k1⟩) = ⟨k0, k1⟩ := by
  rw [kk_toIndex_eq k0 k1 h0 h1, kk_fromIndex_eq,
    u64sub_of_le _ _ (Nat.le_add_right _ _) (kk_toIndex_lt k0 k1 h0 h1),
    Nat.add_sub_cancel_left, digit_mod _ _ _ h1, digit_div _ _ _ h1]

theorem kk_toIndex_fromIndex (i : Nat) (hlo : KK.min_index ≤ i)
    (hi : i < u64size) : KK.toIndex (KK.fromIndex i) = i := by
  rw [kk_fromIndex_eq, u64sub_of_le i KK.min_index hlo hi]
  show (KK.min_index + (i - KK.min_index) / SQ_NB * SQ_NB
      + (i - KK.min_index) % SQ_NB) % u64size = i
  rw [Nat.add_assoc, Nat.mul_comm ((i - KK.min_index) / SQ_NB) SQ_NB,
    Nat.div_add_mod, Nat.add_sub_cancel' hlo, Nat.mod_eq_of_lt hi]

/-- `KKP.fromIndex` written out: digits `piece`, `king1`, quotient `king0`. -/
theorem kkp_fromIndex_eq (i : Nat) :
    KKP.fromIndex i
      = ⟨u64sub i KKP.min_index / fe_end / SQ_NB,
         u64sub i KKP.min_index / fe_end % SQ_NB,
         u64sub i KKP.min_index % fe_end⟩ := rfl

theorem kkp_toIndex_lt (k0 k1 p : Nat) (h0 : k0 < SQ_NB) (h1 : k1 < SQ_NB)
    (hp : p < fe_end) :
    KKP.min_index + ((k0 * SQ_NB + k1) * fe_end + p) < u64size :=
  Nat.lt_trans (Nat.add_lt_add_left (radix_lt (radix_lt h0 h1) hp) _)
    (by decide)

/-- For an in-range tuple, `KKP.toIndex` never wraps. -/
theorem kkp_toIndex_eq (k0 k1 p : Nat) (h0 : k0 < SQ_NB) (h1 : k1 < SQ_NB)
    (hp : p < fe_end) :
    KKP.toIndex ⟨k0, k1, p⟩
      = KKP.min_index + ((k0 * SQ_NB + k1) * fe_end + p) := by
  show (KKP.min_index + (k0 * SQ_NB + k1) * fe_end + p) % u64size
      = KKP.min_index + ((k0 * SQ_NB + k1) * fe_end + p)
  rw [Nat.add_assoc, Nat.mod_eq_of_lt (kkp_toIndex_lt k0 k1 p h0 h1 hp)]

theorem kkp_fromIndex_toIndex (k0 k1 p : Nat) (h0 : k0 < SQ_NB)
    (h1 : k1 < SQ_NB) (hp : p < fe_end) :
    KKP.fromIndex (KKP.toIndex ⟨k0, k1, p⟩) = ⟨k0, k1, p⟩ := by
  rw [kkp_toIndex_eq k0 k1 p h0 h1 hp, kkp_fromIndex_eq,
    u64sub_of_le _ _ (Nat.le_add_right _ _) (kkp_toIndex_lt k0 k1 p h0 h1 hp),
    Nat.add_sub_cancel_left, digit_mod _ _ _ hp, digit_div _ _ _ hp,
    digit_mod _ _ _ h1, digit_div _ _ _ h1]

theorem kkp_toIndex_fromIndex (i : Nat) (hlo : KKP.min_index ≤ i)
    (hi : i < u64size) : KKP.toIndex (KKP.fromIndex i) = i := by
  rw [kkp_fromIndex_eq, u64sub_of_le i KKP.min_index hlo hi]
  show (KKP.min_index + ((i - KKP.min_index) / fe_end / SQ_NB * SQ_NB
      + (i - KKP.min_index) / fe_end % SQ_NB) * fe_end
      + (i - KKP.min_index) % fe_end) % u64size = i
  rw [Nat.mul_comm ((i - KKP.min_index) / fe_end / SQ_NB) SQ_NB,
    Nat.div_add_mod, Nat.mul_comm ((i - KKP.min_index) / fe_end) fe_end,
    Nat.add_assoc, Nat.div_add_mod, Nat.add_sub_cancel' hlo,
    Nat.mod_eq_of_lt hi]

/-- `KPP.fromIndex` written out: digits `piece1`, `piece0`, quotient `king`. -/
theorem kpp_fromIndex_eq (i : Nat) :
    KPP.fromIndex i
      = ⟨u64sub i KPP.min_index / fe_end / fe_end,
         u64sub i KPP.min_index / fe_end % fe_end,
         u64sub i KPP.min_index % fe_end⟩ := rfl

theorem kpp_toIndex_lt (k p0 p1 : Nat) (hk : k < SQ_NB) (h0 : p0 < fe_end)
    (h1 : p1 < fe_end) :
    KPP.min_index + ((k * fe_end + p0) * fe_end + p1) < u64size :=
  Nat.lt_trans (Nat.add_lt_add_left (radix_lt (radix_lt hk h0) h1) _)
    (by decide)

/-- For an in-range tuple, `KPP.toIndex` never wraps. -/
theorem kpp_toIndex_eq (k p0 p1 : Nat) (hk : k < SQ_NB) (h0 : p0 < fe_end)
    (h1 : p1 < fe_end) :
    KPP.toIndex ⟨k, p0, p1⟩
      = KPP.min_index + ((k * fe_end + p0) * fe_end + p1) := by
  show (KPP.min_index + (k * fe_end + p0) * fe_end + p1) % u64size
      = KPP.min_index + ((k * fe_end + p0) * fe_end + p1)
  rw [Nat.add_assoc, Nat.mod_eq_of_lt (kpp_toIndex_lt k p0 p1 hk h0 h1)]

theorem kpp_fromIndex_toIndex (k p0 p1 : Nat) (hk : k < SQ_NB)
    (h0 : p0 < fe_end) (h1 : p1 < fe_end) :
    KPP.fromIndex (KPP.toIndex ⟨k, p0, p1⟩) = ⟨k, p0, p1⟩ := by
  rw [kpp_toIndex_eq k p0 p1 hk h0 h1, kpp_fromIndex_eq,
    u64sub_of_le _ _ (Nat.le_add_right _ _) (kpp_toIndex_lt k p0 p1 hk h0 h1),
    Nat.add_sub_cancel_left, digit_mod _ _ _ h1, digit_div _ _ _ h1,
    digit_mod _ _ _ h0, digit_div _ _ _ h0]

theorem kpp_toIndex_fromIndex (i : Nat) (hlo : KPP.min_index ≤ i)
    (hi : i < u64size) : KPP.toIndex (KPP.fromIndex i) = i := by
  rw [kpp_fromIndex_eq, u64sub_of_le i KPP.min_index hlo hi]
  show (KPP.min_index + ((i - KPP.min_index) / fe_end / fe_end * fe_end
      + (i - KPP.min_index) / fe_end % fe_end) * fe_end
      + (i - KPP.min_index) % fe_end) % u64size = i
  rw [Nat.mul_comm ((i - KPP.min_index) / fe_end / fe_end) fe_end,
    Nat.div_add_mod, Nat.mul_comm ((i - KPP.min_index) / fe_end) fe_end,
    Nat.add_assoc, Nat.div_add_mod, Nat.add_sub_cancel' hlo,
    Nat.mod_eq_of_lt hi]

theorem kk_toIndex_is_ok (k0 k1 : Nat) (h0 : k0 < SQ_NB) (h1 : k1 < SQ_NB) :
    KK.is_ok (KK.toIndex ⟨k0, k1⟩) = true := by
  rw [kk_toIndex_eq k0 k1 h0 h1]
  exact (kk_is_ok_iff _).mpr (Nat.add_lt_add_left (radix_lt h0 h1) _)

theorem kkp_toIndex_is_ok (k0 k1 p : Nat) (h0 : k0 < SQ_NB) (h1 : k1 < SQ_NB)
    (hp : p < fe_end) : KKP.is_ok (KKP.toIndex ⟨k0, k1, p⟩) = true := by
  rw [kkp_toIndex_eq k0 k1 p h0 h1 hp]
  exact (kkp_is_ok_iff _).mpr ⟨Nat.le_add_right _ _,
    Nat.add_lt_add_left (radix_lt (radix_lt h0 h1) hp) _⟩

theorem kpp_toIndex_is_ok (k p0 p1 : Nat) (hk : k < SQ_NB) (h0 : p0 < fe_end)
    (h1 : p1 < fe_end) : KPP.is_ok (KPP.toIndex ⟨k, p0, p1⟩) = true := by
  rw [kpp_toIndex_eq k p0 p1 hk h0 h1]
  exact (kpp_is_ok_iff _).mpr ⟨Nat.le_add_right _ _,
    Nat.add_lt_add_left (radix_lt (radix_lt hk h0) h1) _⟩

/-! ### `struct Weight` and its two update rules -/

/-- C's `round()`: nearest integer, halves rounded away from zero. -/
def cround (x : ℚ) : ℤ := if x < 0 then -⌊-x + 1 / 2⌋ else ⌊x + 1 / 2⌋

/-- A C cast from a floating value to an integer type: truncation toward
zero. -/
def ctrunc (x : ℚ) : ℤ := if x < 0 then -⌊-x⌋ else ⌊x⌋

/-- `epsilon` in `Weight::updateFV` (ADA_GRAD_UPDATE). -/
def epsilon : ℚ := 1 / 1000000

/-- `(double)INT16_MAX * 3 / 4`, the upper clamp bound: 24575.25. -/
def vmax : ℚ := (32767 : ℚ) * 3 / 4

/-- `(double)INT16_MIN * 3 / 4`, the lower clamp bound: -24576. -/
def vmin : ℚ := (-32768 : ℚ) * 3 / 4

/-- One channel `i` of `Weight::updateFV` in the ADA_GRAD_UPDATE build.
Inputs are the channel's fields `g[i]`, `g2[i]`, `v8[i]` and the live value
`v[i]`; the result is the updated `(g2[i], v8[i], v[i])`.  `sqrt` is the
`<cmath>` square root, supplied as a parameter; float/double arithmetic is
embedded as exact rational arithmetic. -/
def updateFVadaCh (sqrt : ℚ → ℚ) (eta : ℚ) (g g2 : ℚ) (v8 : ℤ) (v : ℤ) :
    ℚ × ℤ × ℤ :=
  if g = 0 then (g2, v8, v)
  else
    let g2' := g2 + g * g
    let V0 : ℚ := (v : ℚ) + (v8 : ℚ) / 127
    let V1 := V0 - eta * g / sqrt (g2' + epsilon)
    let V2 := min vmax V1
    let V3 := max vmin V2
    let v' := cround V3
    let v8' := ctrunc ((V3 - (v' : ℚ)) * 127)
    (g2', v8', v')

/-- The fields of `struct Weight` in the ADA_GRAD_UPDATE build: the gradient
pair `g`, the squared-gradient pair `g2` and the fractional-carry pair `v8`
(signed 8-bit values, embedded as `ℤ`). -/
structure Weight where
  g : ℚ × ℚ
  g2 : ℚ × ℚ
  v8 : ℤ × ℤ

/-- `Weight::updateFV(v)` in the ADA_GRAD_UPDATE build: both channels are
processed independently; `g` is left untouched (clearing it is the caller's
job). Returns the updated record and live pair. -/
def updateFVada (sqrt : ℚ → ℚ) (eta : ℚ) (w : Weight) (v : ℤ × ℤ) :
    Weight × (ℤ × ℤ) :=
  let r0 := updateFVadaCh sqrt eta w.g.1 w.g2.1 w.v8.1 v.1
  let r1 := updateFVadaCh sqrt eta w.g.2 w.g2.2 w.v8.2 v.2
  (⟨w.g, (r0.1, r1.1), (r0.2.1, r1.2.1)⟩, (r0.2.2, r1.2.2))

/-- One channel `i` of `Weight::updateFV` in the SGD_UPDATE build.  `rnd`
is the stream of successive values of `rand.rand(3)` (each in `{0,1,2}`)
and `k` the position of the next unconsumed draw; a draw is consumed only
when `g[i] ≠ 0` (`if (rand.rand(3)) continue;` skips on a nonzero draw).
The clamp constants are the C casts `(s16)((double)INT16_MAX * 3 / 4)` and
`(s16)((double)INT16_MIN * 3 / 4)`.  Returns the new `v[i]` and the next
stream position. -/
def updateFVsgdCh (rnd : Nat → Nat) (k : Nat) (g : ℚ) (v : ℤ) : ℤ × Nat :=
  if g = 0 then (v, k)
  else if rnd k ≠ 0 then (v, k + 1)
  else
    let V := if 0 < g then v - 1 else v + 1
    let V := min (ctrunc vmax) V
    let V := max (ctrunc vmin) V
    (V, k + 1)

/-- `Weight::updateFV(v)` in the SGD_UPDATE build: channel 0 then channel 1,
threading the PRNG stream position. -/
def updateFVsgd (rnd : Nat → Nat) (g : ℚ × ℚ) (v : ℤ × ℤ) : ℤ × ℤ :=
  let r0 := updateFVsgdCh rnd 0 g.1 v.1
  let r1 := updateFVsgdCh rnd r0.2 g.2 v.2
  (r0.1, r1.1)

theorem cround_le (x : ℚ) (h : x ≤ vmax) : cround x ≤ 24575 := by
  unfold cround vmax at *
  by_cases hx : x < 0
  · rw [if_pos hx]
    have h0 : (0 : ℤ) ≤ ⌊-x + 1 / 2⌋ := Int.floor_nonneg.mpr (by linarith)
    omega
  · rw [if_neg hx]
    have h1 : ⌊x + 1 / 2⌋ ≤ ⌊(98303 : ℚ) / 4⌋ := Int.floor_le_floor (by linarith)
    have h2 : ⌊(98303 : ℚ) / 4⌋ = 24575 := by norm_num [Int.floor_eq_iff]
    omega

theorem cround_ge (x : ℚ) (h : vmin ≤ x) : -24576 ≤ cround x := by
  unfold cround vmin at *
  by_cases hx : x < 0
  · rw [if_pos hx]
    have h1 : ⌊-x + 1 / 2⌋ ≤ ⌊(49153 : ℚ) / 2⌋ := Int.floor_le_floor (by linarith)
    have h2 : ⌊(49153 : ℚ) / 2⌋ = 24576 := by norm_num [Int.floor_eq_iff]
    omega
  · rw [if_neg hx]
    have h0 : (0 : ℤ) ≤ ⌊x + 1 / 2⌋ := Int.floor_nonneg.mpr (by linarith)
    omega

/-- Rounding after the two clamp lines keeps the stored value inside
`[vmin, vmax]`: the lower clamp is at `vmin = -24576` exactly, and
`cround` cannot push `24575.25` above `24575`. -/
theorem cround_clamp_bounds (V : ℚ) :
    vmin ≤ (cround (max vmin (min vmax V)) : ℚ) ∧
    (cround (max vmin (min vmax V)) : ℚ) ≤ vmax := by
  have hlo : vmin ≤ max vmin (min vmax V) := le_max_left _ _
  have hhi : max vmin (min vmax V) ≤ vmax :=
    max_le (by norm_num [vmin, vmax]) (min_le_left _ _)
  have hg := cround_ge _ hlo
  have hl := cround_le _ hhi
  constructor
  · have : ((-24576 : ℤ) : ℚ) ≤ (cround (max vmin (min vmax V)) : ℚ) := by
      exact_mod_cast hg
    calc vmin = ((-24576 : ℤ) : ℚ) := by norm_num [vmin]
      _ ≤ _ := this
  · have : (cround (max vmin (min vmax V)) : ℚ) ≤ ((24575 : ℤ) : ℚ) := by
      exact_mod_cast hl
    calc (cround (max vmin (min vmax V)) : ℚ) ≤ ((24575 : ℤ) : ℚ) := this
      _ ≤ vmax := by norm_num [vmax]

/-- `cround` at the lower clamp value itself. -/
theorem cround_vmin : cround vmin = -24576 := by
  unfold cround vmin
  rw [if_pos (by norm_num)]
  norm_num [Int.floor_eq_iff]

/-- Any candidate value at or below the lower clamp is stored as -24576. -/
theorem cround_clamp_floor (V : ℚ) (h : V ≤ vmin) :
    cround (max vmin (min vmax V)) = -24576 := by
  rw [min_eq_right (le_trans h (by norm_num [vmin, vmax])), max_eq_left h,
    cround_vmin]

/-- A channel with nonzero gradient lands inside `[vmin, vmax]` whatever the
other inputs are. -/
theorem updateFVadaCh_clamped (sqrt : ℚ → ℚ) (eta g g2 : ℚ) (v8 v : ℤ)
    (hg : g ≠ 0) :
    vmin ≤ ((updateFVadaCh sqrt eta g g2 v8 v).2.2 : ℚ) ∧
    ((updateFVadaCh sqrt eta g g2 v8 v).2.2 : ℚ) ≤ vmax := by
  simp only [updateFVadaCh, if_neg hg]
  exact cround_clamp_bounds _

/-- A channel with zero gradient is left entirely untouched. -/
theorem updateFVadaCh_frame (sqrt : ℚ → ℚ) (eta g g2 : ℚ) (v8 v : ℤ)
    (hg : g = 0) : updateFVadaCh sqrt eta g g2 v8 v = (g2, v8, v) := by
  simp only [updateFVadaCh, if_pos hg]

/-- C1: for each of KK, KKP, KPP, (a) decoding the encoding of any in-range
tuple returns the tuple, and (b) encoding the decoding of any index in
`[min_index(), max_index())` returns the index. -/
theorem C1_encode_decode_roundtrip :
    (∀ k0 k1 : Nat, k0 < SQ_NB → k1 < SQ_NB →
      KK.fromIndex (KK.toIndex ⟨k0, k1⟩) = ⟨k0, k1⟩) ∧
    (∀ k0 k1 p : Nat, k0 < SQ_NB → k1 < SQ_NB → p < fe_end →
      KKP.fromIndex (KKP.toIndex ⟨k0, k1, p⟩) = ⟨k0, k1, p⟩) ∧
    (∀ k p0 p1 : Nat, k < SQ_NB → p0 < fe_end → p1 < fe_end →
      KPP.fromIndex (KPP.toIndex ⟨k, p0, p1⟩) = ⟨k, p0, p1⟩) ∧
    (∀ i : Nat, KK.min_index ≤ i → i < KK.max_index →
      KK.toIndex (KK.fromIndex i) = i) ∧
    (∀ i : Nat, KKP.min_index ≤ i → i < KKP.max_index →
      KKP.toIndex (KKP.fromIndex i) = i) ∧
    (∀ i : Nat, KPP.min_index ≤ i → i < KPP.max_index →
      KPP.toIndex (KPP.fromIndex i) = i) := by
  refine ⟨kk_fromIndex_toIndex, kkp_fromIndex_toIndex, kpp_fromIndex_toIndex,
    ?_, ?_, ?_⟩
  · intro i h1 h2
    refine kk_toIndex_fromIndex i h1 ?_
    simp only [KK.max_index, KK.min_index, SQ_NB, u64size] at *
    omega
  · intro i h1 h2
    refine kkp_toIndex_fromIndex i h1 ?_
    simp only [KKP.max_index, KKP.min_index, KK.max_index, KK.min_index,
      SQ_NB, fe_end, u64size] at *
    omega
  · intro i h1 h2
    refine kpp_toIndex_fromIndex i h1 ?_
    simp only [KPP.max_index, KPP.min_index, KKP.max_index, KKP.min_index,
      KK.max_index, KK.min_index, SQ_NB, fe_end, u64size] at *
    omega

/-- Witness for C1, at the spec's concrete scenario `KPP(5, 10, 20)` and at
a concrete in-range index of each family. -/
theorem C1_encode_decode_roundtrip_witness :
    KPP.fromIndex (KPP.toIndex ⟨5, 10, 20⟩) = ⟨5, 10, 20⟩ ∧
    KK.fromIndex (KK.toIndex ⟨3, 7⟩) = ⟨3, 7⟩ ∧
    KKP.fromIndex (KKP.toIndex ⟨3, 7, 11⟩) = ⟨3, 7, 11⟩ ∧
    KK.toIndex (KK.fromIndex 1000) = 1000 ∧
    KKP.toIndex (KKP.fromIndex 7000) = 7000 ∧
    KPP.toIndex (KPP.fromIndex 11000000) = 11000000 :=
  ⟨C1_encode_decode_roundtrip.2.2.1 5 10 20 (by decide) (by decide) (by decide),
   C1_encode_decode_roundtrip.1 3 7 (by decide) (by decide),
   C1_encode_decode_roundtrip.2.1 3 7 11 (by decide) (by decide) (by decide),
   C1_encode_decode_roundtrip.2.2.2.1 1000 (by decide) (by decide),
   C1_encode_decode_roundtrip.2.2.2.2.1 7000 (by decide) (by decide),
   C1_encode_decode_roundtrip.2.2.2.2.2 11000000 (by decide) (by decide)⟩

/-- C2: the three families' ranges chain with no gaps or overlap: KK starts
at 0, each next family starts at the previous family's `max_index()`, the
extents are `SQ_NB*SQ_NB`, `SQ_NB*SQ_NB*fe_end` and `SQ_NB*fe_end*fe_end`,
the concrete boundary values match `SQ_NB = 81`, `fe_end = 1548`, and the
ranges are pairwise disjoint and jointly cover `[0, KPP.max_index())`. -/
theorem C2_ranges_contiguous_disjoint :
    KK.min_index = 0 ∧
    KKP.min_index = KK.max_index ∧
    KPP.min_index = KKP.max_index ∧
    KK.max_index = KK.min_index + SQ_NB * SQ_NB ∧
    KKP.max_index = KKP.min_index + SQ_NB * SQ_NB * fe_end ∧
    KPP.max_index = KPP.min_index + SQ_NB * fe_end * fe_end ∧
    KK.max_index = 81 * 81 ∧
    KKP.min_index = 81 * 81 ∧
    KKP.max_index = KKP.min_index + 81 * 81 * 1548 ∧
    (∀ i : Nat, KK.is_ok i = true → KKP.is_ok i = false ∧ KPP.is_ok i = false) ∧
    (∀ i : Nat, KKP.is_ok i = true → KK.is_ok i = false ∧ KPP.is_ok i = false) ∧
    (∀ i : Nat, KPP.is_ok i = true → KK.is_ok i = false ∧ KKP.is_ok i = false) ∧
    (∀ i : Nat, i < KPP.max_index ↔
      (KK.is_ok i = true ∨ KKP.is_ok i = true ∨ KPP.is_ok i = true)) := by
  refine ⟨rfl, rfl, rfl, rfl, rfl, rfl, by decide, by decide, by decide,
    ?_, ?_, ?_, ?_⟩
  · intro i h
    have hi : i < KK.max_index := (kk_is_ok_iff i).mp h
    exact ⟨kkp_is_ok_false_lo i hi,
      kpp_is_ok_false_lo i (Nat.lt_of_lt_of_le hi (by decide))⟩
  · intro i h
    obtain ⟨h1, h2⟩ := (kkp_is_ok_iff i).mp h
    exact ⟨kk_is_ok_false_hi i h1, kpp_is_ok_false_lo i h2⟩
  · intro i h
    obtain ⟨h1, h2⟩ := (kpp_is_ok_iff i).mp h
    exact ⟨kk_is_ok_false_hi i (Nat.le_trans (by decide) h1),
      kkp_is_ok_false_hi i h1⟩
  · intro i
    constructor
    · intro h
      rcases Nat.lt_or_ge i KK.max_index with h1 | h1
      · exact Or.inl ((kk_is_ok_iff i).mpr h1)
      · rcases Nat.lt_or_ge i KKP.max_index with h2 | h2
        · exact Or.inr (Or.inl ((kkp_is_ok_iff i).mpr ⟨h1, h2⟩))
        · exact Or.inr (Or.inr ((kpp_is_ok_iff i).mpr ⟨h2, h⟩))
    · intro h
      rcases h with h | h | h
      · exact Nat.lt_of_lt_of_le ((kk_is_ok_iff i).mp h) (by decide)
      · exact Nat.lt_of_lt_of_le ((kkp_is_ok_iff i).mp h).2 (by decide)
      · exact ((kpp_is_ok_iff i).mp h).2

/-- Witness for C2's quantified conjuncts at concrete indices. -/
theorem C2_ranges_contiguous_disjoint_witness :
    (KKP.is_ok 100 = false ∧ KPP.is_ok 100 = false) ∧
    (KK.is_ok 7000 = false ∧ KPP.is_ok 7000 = false) ∧
    (KK.is_ok 11000000 = false ∧ KKP.is_ok 11000000 = false) ∧
    (KK.is_ok 100 = true ∨ KKP.is_ok 100 = true ∨ KPP.is_ok 100 = true) :=
  ⟨C2_ranges_contiguous_disjoint.2.2.2.2.2.2.2.2.2.1 100 (by decide),
   C2_ranges_contiguous_disjoint.2.2.2.2.2.2.2.2.2.2.1 7000 (by decide),
   C2_ranges_contiguous_disjoint.2.2.2.2.2.2.2.2.2.2.2.1 11000000 (by decide),
   (C2_ranges_contiguous_disjoint.2.2.2.2.2.2.2.2.2.2.2.2 100).mp (by decide)⟩

/-- C3 counterexample: the claim also asserts
`KPP::min_index() == SQ_NB*SQ_NB + SQ_NB*SQ_NB*SQ_NB*SQ_NB*fe_end`, but the
code's KPP range starts at `SQ_NB*SQ_NB + SQ_NB*SQ_NB*fe_end = 10162989`,
not at `81*81 + 81*81*81*81*1548 = 66636330669`. -/
theorem C3_counterexample :
    KPP.min_index = 10162989 ∧
    SQ_NB * SQ_NB + SQ_NB * SQ_NB * SQ_NB * SQ_NB * fe_end = 66636330669 ∧
    KPP.min_index ≠ SQ_NB * SQ_NB + SQ_NB * SQ_NB * SQ_NB * SQ_NB * fe_end := by
  refine ⟨by decide, by decide, by decide⟩

/-- C3 (amended): index 0 begins the KK range, the KKP range begins
`SQ_NB*SQ_NB` indices later, and the KPP range begins `SQ_NB*SQ_NB*fe_end`
further on relative to the start of the KKP range; the total size is the sum
of the three extents. -/
theorem C3_global_layout_amended :
    KK.min_index = 0 ∧
    KKP.min_index = SQ_NB * SQ_NB ∧
    KPP.min_index = SQ_NB * SQ_NB + SQ_NB * SQ_NB * fe_end ∧
    KPP.max_index
      = SQ_NB * SQ_NB + SQ_NB * SQ_NB * fe_end + SQ_NB * fe_end * fe_end := by
  refine ⟨rfl, by decide, by decide, by decide⟩

/-- C6: `toLowerDimensions` enumerates each feature's symmetry class exactly
as specified: KK yields only the feature itself; KKP yields the feature and
its mirror; KPP yields the feature, the piece swap, the mirror, and the
mirrored swap; the four KPP variants of `(5, 10, 20)` include `(5, 20, 10)`
and the mirrored pair. -/
theorem C6_toLowerDimensions_enumeration (mir mirp : Nat → Nat)
    (k0 k1 k p p0 p1 : Nat) :
    KK.toLowerDimensions ⟨k0, k1⟩ = [⟨k0, k1⟩] ∧
    KKP.toLowerDimensions mir mirp ⟨k0, k1, p⟩
      = [⟨k0, k1, p⟩, ⟨mir k0, mir k1, mirp p⟩] ∧
    KPP.toLowerDimensions mir mirp ⟨k, p0, p1⟩
      = [⟨k, p0, p1⟩, ⟨k, p1, p0⟩, ⟨mir k, mirp p0, mirp p1⟩,
         ⟨mir k, mirp p1, mirp p0⟩] ∧
    (KPP.toLowerDimensions mir mirp ⟨5, 10, 20⟩).length = 4 ∧
    KPP.mk 5 20 10 ∈ KPP.toLowerDimensions mir mirp ⟨5, 10, 20⟩ ∧
    KPP.mk (mir 5) (mirp 10) (mirp 20)
      ∈ KPP.toLowerDimensions mir mirp ⟨5, 10, 20⟩ ∧
    KPP.mk (mir 5) (mirp 20) (mirp 10)
      ∈ KPP.toLowerDimensions mir mirp ⟨5, 10, 20⟩ := by
  exact ⟨rfl, rfl, rfl, rfl,
    List.mem_cons_of_mem _ (List.mem_cons_self _ _),
    List.mem_cons_of_mem _ (List.mem_cons_of_mem _ (List.mem_cons_self _ _)),
    List.mem_cons_of_mem _ (List.mem_cons_of_mem _
      (List.mem_cons_of_mem _ (List.mem_cons_self _ _)))⟩

/-- C7: under the external contracts that `Mir` maps squares into
`[0, SQ_NB)` and `mir_piece` maps piece codes into `[0, fe_end)`, every
element `toLowerDimensions` produces from a valid feature re-encodes to an
index accepted by the same family's `is_ok`. -/
theorem C7_folding_stays_in_family (mir mirp : Nat → Nat)
    (hmir : ∀ s, s < SQ_NB → mir s < SQ_NB)
    (hmirp : ∀ p, p < fe_end → mirp p < fe_end) :
    (∀ k0 k1 : Nat, k0 < SQ_NB → k1 < SQ_NB →
      ∀ x ∈ KK.toLowerDimensions ⟨k0, k1⟩, KK.is_ok (KK.toIndex x) = true) ∧
    (∀ k0 k1 p : Nat, k0 < SQ_NB → k1 < SQ_NB → p < fe_end →
      ∀ x ∈ KKP.toLowerDimensions mir mirp ⟨k0, k1, p⟩,
        KKP.is_ok (KKP.toIndex x) = true) ∧
    (∀ k p0 p1 : Nat, k < SQ_NB → p0 < fe_end → p1 < fe_end →
      ∀ x ∈ KPP.toLowerDimensions mir mirp ⟨k, p0, p1⟩,
        KPP.is_ok (KPP.toIndex x) = true) := by
  refine ⟨?_, ?_, ?_⟩
  · intro k0 k1 h0 h1 x hx
    simp only [KK.toLowerDimensions, List.mem_singleton] at hx
    subst hx
    exact kk_toIndex_is_ok k0 k1 h0 h1
  · intro k0 k1 p h0 h1 hp x hx
    simp only [KKP.toLowerDimensions, List.mem_cons, List.not_mem_nil,
      or_false] at hx
    rcases hx with h | h <;> subst h
    · exact kkp_toIndex_is_ok _ _ _ h0 h1 hp
    · exact kkp_toIndex_is_ok _ _ _ (hmir _ h0) (hmir _ h1) (hmirp _ hp)
  · intro k p0 p1 hk h0 h1 x hx
    simp only [KPP.toLowerDimensions, List.mem_cons, List.not_mem_nil,
      or_false] at hx
    rcases hx with h | h | h | h <;> subst h
    · exact kpp_toIndex_is_ok _ _ _ hk h0 h1
    · exact kpp_toIndex_is_ok _ _ _ hk h1 h0
    · exact kpp_toIndex_is_ok _ _ _ (hmir _ hk) (hmirp _ h0) (hmirp _ h1)
    · exact kpp_toIndex_is_ok _ _ _ (hmir _ hk) (hmirp _ h1) (hmirp _ h0)

/-- Witness for C7 with the identity as mirror maps, at one concrete member
of each family's class. -/
theorem C7_folding_stays_in_family_witness :
    KK.is_ok (KK.toIndex ⟨1, 2⟩) = true ∧
    KKP.is_ok (KKP.toIndex ⟨1, 2, 3⟩) = true ∧
    KPP.is_ok (KPP.toIndex ⟨5, 20, 10⟩) = true :=
  ⟨(C7_folding_stays_in_family (fun s => s) (fun p => p)
      (fun _ h => h) (fun _ h => h)).1 1 2 (by decide) (by decide)
      ⟨1, 2⟩ (by decide),
   (C7_folding_stays_in_family (fun s => s) (fun p => p)
      (fun _ h => h) (fun _ h => h)).2.1 1 2 3 (by decide) (by decide)
      (by decide) ⟨1, 2, 3⟩ (by decide),
   (C7_folding_stays_in_family (fun s => s) (fun p => p)
      (fun _ h => h) (fun _ h => h)).2.2 5 10 20 (by decide) (by decide)
      (by decide) ⟨5, 20, 10⟩ (by decide)⟩

/-- C10: the KPP encoding does not canonicalize piece order — for a king in
range and distinct in-range piece codes, the two orderings encode to
distinct indices, both valid for KPP; the swap equivalence appears only in
`toLowerDimensions`. -/
theorem C10_no_order_canonicalization (k p0 p1 : Nat) (hk : k < SQ_NB)
    (h0 : p0 < fe_end) (h1 : p1 < fe_end) (hne : p0 ≠ p1) :
    KPP.toIndex ⟨k, p0, p1⟩ ≠ KPP.toIndex ⟨k, p1, p0⟩ ∧
    KPP.is_ok (KPP.toIndex ⟨k, p0, p1⟩) = true ∧
    KPP.is_ok (KPP.toIndex ⟨k, p1, p0⟩) = true ∧
    (∀ mir mirp : Nat → Nat,
      KPP.mk k p1 p0 ∈ KPP.toLowerDimensions mir mirp ⟨k, p0, p1⟩) := by
  refine ⟨?_, kpp_toIndex_is_ok k p0 p1 hk h0 h1,
    kpp_toIndex_is_ok k p1 p0 hk h1 h0, ?_⟩
  · intro heq
    have h := congrArg KPP.fromIndex heq
    rw [kpp_fromIndex_toIndex k p0 p1 hk h0 h1,
        kpp_fromIndex_toIndex k p1 p0 hk h1 h0] at h
    simp only [KPP.mk.injEq] at h
    exact hne h.2.1
  · intro mir mirp
    simp [KPP.toLowerDimensions]

/-- Witness for C10 at `(k, p0, p1) = (5, 10, 20)`. -/
theorem C10_no_order_canonicalization_witness :
    KPP.toIndex ⟨5, 10, 20⟩ ≠ KPP.toIndex ⟨5, 20, 10⟩ ∧
    KPP.is_ok (KPP.toIndex ⟨5, 10, 20⟩) = true ∧
    KPP.is_ok (KPP.toIndex ⟨5, 20, 10⟩) = true :=
  ⟨(C10_no_order_canonicalization 5 10 20 (by decide) (by decide) (by decide)
      (by decide)).1,
   (C10_no_order_canonicalization 5 10 20 (by decide) (by decide) (by decide)
      (by decide)).2.1,
   (C10_no_order_canonicalization 5 10 20 (by decide) (by decide) (by decide)
      (by decide)).2.2.1⟩

/-- C5 counterexample: in the AdaGrad variant an extreme gradient drives the
stored live value to -24576 = INT16_MIN*3/4, which lies below the claimed
lower bound -0.75*INT16_MAX = -24575.25: the code clamps at
`(double)INT16_MIN * 3 / 4`, not at `-(double)INT16_MAX * 3 / 4`. -/
theorem C5_counterexample :
    (updateFVada (fun _ => 1) 1000000 ⟨(1, 0), (0, 0), (0, 0)⟩ (0, 0)).2.1
      = -24576 ∧
    ¬ (-(32767 : ℚ) * 3 / 4 ≤ ((-24576 : ℤ) : ℚ)) := by
  refine ⟨?_, by norm_num⟩
  show (updateFVadaCh (fun _ => 1) 1000000 1 0 0 0).2.2 = -24576
  simp only [updateFVadaCh, if_neg (show (1 : ℚ) ≠ 0 by norm_num)]
  exact cround_clamp_floor _ (by norm_num [vmin])

/-- C5 (amended): in the AdaGrad variant, every channel with nonzero
accumulated gradient ends with a stored live value inside
`[0.75*INT16_MIN, 0.75*INT16_MAX] = [-24576, 24575.25]`, for all values of
`g`, `g2`, `v8`, `eta`, the prior live value, and any square-root routine. -/
theorem C5_adagrad_clamp_amended (sqrt : ℚ → ℚ) (eta : ℚ) (w : Weight)
    (v : ℤ × ℤ) :
    (w.g.1 ≠ 0 →
      vmin ≤ ((updateFVada sqrt eta w v).2.1 : ℚ) ∧
      ((updateFVada sqrt eta w v).2.1 : ℚ) ≤ vmax) ∧
    (w.g.2 ≠ 0 →
      vmin ≤ ((updateFVada sqrt eta w v).2.2 : ℚ) ∧
      ((updateFVada sqrt eta w v).2.2 : ℚ) ≤ vmax) := by
  constructor <;> intro h
  · simpa [updateFVada] using
      updateFVadaCh_clamped sqrt eta w.g.1 w.g2.1 w.v8.1 v.1 h
  · simpa [updateFVada] using
      updateFVadaCh_clamped sqrt eta w.g.2 w.g2.2 w.v8.2 v.2 h

/-- Witness for C5 (amended) at the counterexample's extreme input: the
stored value stays inside `[vmin, vmax]`. -/
theorem C5_adagrad_clamp_amended_witness :
    vmin ≤ ((updateFVada (fun _ => 1) 1000000 ⟨(1, 0), (0, 0), (0, 0)⟩
      (0, 0)).2.1 : ℚ) ∧
    ((updateFVada (fun _ => 1) 1000000 ⟨(1, 0), (0, 0), (0, 0)⟩
      (0, 0)).2.1 : ℚ) ≤ vmax :=
  (C5_adagrad_clamp_amended (fun _ => 1) 1000000 ⟨(1, 0), (0, 0), (0, 0)⟩
    (0, 0)).1 (by norm_num)

/-- C8: in the AdaGrad variant, a channel whose accumulated gradient is
exactly 0 keeps its live value, fractional carry and squared-gradient
accumulator unchanged, whatever the other channel's gradient is. -/
theorem C8_adagrad_zero_gradient_frame (sqrt : ℚ → ℚ) (eta : ℚ) (w : Weight)
    (v : ℤ × ℤ) :
    (w.g.1 = 0 →
      (updateFVada sqrt eta w v).1.g2.1 = w.g2.1 ∧
      (updateFVada sqrt eta w v).1.v8.1 = w.v8.1 ∧
      (updateFVada sqrt eta w v).2.1 = v.1) ∧
    (w.g.2 = 0 →
      (updateFVada sqrt eta w v).1.g2.2 = w.g2.2 ∧
      (updateFVada sqrt eta w v).1.v8.2 = w.v8.2 ∧
      (updateFVada sqrt eta w v).2.2 = v.2) := by
  constructor <;> intro h
  · simp only [updateFVada,
      updateFVadaCh_frame sqrt eta w.g.1 w.g2.1 w.v8.1 v.1 h]
    exact ⟨trivial, trivial, trivial⟩
  · simp only [updateFVada,
      updateFVadaCh_frame sqrt eta w.g.2 w.g2.2 w.v8.2 v.2 h]
    exact ⟨trivial, trivial, trivial⟩

/-- Witness for C8: channel 0's gradient is 0, channel 1's is 5; channel 0's
state survives `updateFV` unchanged. -/
theorem C8_adagrad_zero_gradient_frame_witness :
    (updateFVada (fun _ => 0) 2 ⟨(0, 5), (7, 9), (3, 4)⟩ (11, 13)).1.g2.1 = 7 ∧
    (updateFVada (fun _ => 0) 2 ⟨(0, 5), (7, 9), (3, 4)⟩ (11, 13)).1.v8.1 = 3 ∧
    (updateFVada (fun _ => 0) 2 ⟨(0, 5), (7, 9), (3, 4)⟩ (11, 13)).2.1 = 11 :=
  (C8_adagrad_zero_gradient_frame (fun _ => 0) 2 ⟨(0, 5), (7, 9), (3, 4)⟩
    (11, 13)).1 rfl

end EvalLearningTools
